import Mathlib

/-
  Verification of the Streamline-comms message-handling pipeline.

  Shallow embedding of the core components of the repository:
  - `runtime/rag_service.py` : language detection, romanized-text normalization,
    prompt assembly, lead extraction, quota enforcement, retrieval and the
    `handle_message` orchestrator;
  - `runtime/rag_service4.py` : the older prompt composer (`build_messages`);
  - `llm/llm_client.py` : the retrying completion gateway;
  - `serverless/router.py` : tenant resolution.

  External effects (embedding model, vector search, HTTP providers, the lead
  datastore, the statistical language detector) are modelled as injected
  capability functions; machine behavior that the code treats as opaque
  (network, filesystem) is a parameter, never stubbed inside a definition.
  Python truthiness checks (`if cid:`, `or` chains) are modelled explicitly.
-/

set_option maxRecDepth 4000

deriving instance DecidableEq for Except

/-! ## Basic string utilities mirroring Python primitives -/

/-- Does `needle` occur at the head of `hay`?  Mirrors the anchored part of
Python substring search. -/
def listStarts : List Char → List Char → Bool
  | [], _ => true
  | _ :: _, [] => false
  | a :: as, b :: bs => a == b && listStarts as bs

/-- Contiguous-substring containment on char lists, mirroring Python
`needle in hay` for strings. -/
def listHasSub (needle : List Char) : List Char → Bool
  | [] => needle.isEmpty
  | b :: t => listStarts needle (b :: t) || listHasSub needle t

/-- Python `needle in hay` for strings. -/
def strContains (hay needle : String) : Bool :=
  listHasSub needle.data hay.data

/-- Python `s.startswith(p)`. -/
def strStarts (p s : String) : Bool :=
  listStarts p.data s.data

/-- The ASCII whitespace characters stripped by Python `str.strip()`
(the inputs exercised here are ASCII). -/
def pyIsSpace (c : Char) : Bool :=
  c == ' ' || c == '\t' || c == '\n' || c == '\r' || c == '\x0b' || c == '\x0c'

/-- Strip whitespace from both ends of a char list (Python `str.strip()`). -/
def trimChars (s : List Char) : List Char :=
  ((s.dropWhile pyIsSpace).reverse.dropWhile pyIsSpace).reverse

/-- Python `s.strip()`. -/
def pyStrip (s : String) : String :=
  ⟨trimChars s.data⟩

/-- Python `s.lower()` (ASCII case mapping). -/
def pyLower (s : String) : String :=
  ⟨s.data.map Char.toLower⟩

/-- Python truthiness of an optional string (`None` and `""` are falsy). -/
def optTruthy : Option String → Bool
  | none => false
  | some s => !s.isEmpty

/-- Python `a or b` over optional strings: the first truthy value wins. -/
def pyOrOpt (a b : Option String) : Option String :=
  if optTruthy a then a else b

/-! ## `normalize_romanized` (rag_service.py lines 87-92)

    t = re.sub(r'([aeiou])\1{2,}', r'\1', text)
    t = re.sub(r'(.)\1{2,}', r'\1\1', t)
    t = t.strip().lower()

Both substitutions act on maximal runs of one repeated character (the
backreference pattern cannot match across differing characters, and greedy
matching consumes a maximal run), so they are modelled as run-rewriting:
`vowelRule` collapses a run of ≥ 3 identical lowercase vowels to one;
`longRule` collapses any other run of ≥ 3 identical characters to two.
`.` in the second pattern does not match a newline (no DOTALL flag), so
newline runs are kept. -/

def isVowelLower (c : Char) : Bool :=
  c == 'a' || c == 'e' || c == 'i' || c == 'o' || c == 'u'

/-- Rewrite rule for `re.sub(r'([aeiou])\1{2,}', r'\1', ·)`: a run of `n`
copies of `c` becomes one copy when `c` is a lowercase vowel and `n ≥ 3`. -/
def vowelRule (c : Char) (n : Nat) : List Char :=
  if isVowelLower c && decide (3 ≤ n) then [c] else List.replicate n c

/-- Rewrite rule for `re.sub(r'(.)\1{2,}', r'\1\1', ·)`: a run of `n` copies
of `c` becomes two copies when `n ≥ 3` and `c` is not a newline. -/
def longRule (c : Char) (n : Nat) : List Char :=
  if c != '\n' && decide (3 ≤ n) then [c, c] else List.replicate n c

/-- Process the tail of the current run: `c` is the run character and `n` the
number of copies seen so far. -/
def collapseAux (f : Char → Nat → List Char) (c : Char) (n : Nat) : List Char → List Char
  | [] => f c n
  | x :: xs => if x = c then collapseAux f c (n + 1) xs else f c n ++ collapseAux f x 1 xs

/-- Apply a run-rewriting rule to every maximal run of a char list. -/
def collapseRuns (f : Char → Nat → List Char) : List Char → List Char
  | [] => []
  | x :: xs => collapseAux f x 1 xs

/-- `normalize_romanized` from rag_service.py: collapse long vowel runs to
one, collapse other long runs to two, strip, lowercase. -/
def normalize_romanized (text : String) : String :=
  ⟨(trimChars (collapseRuns longRule (collapseRuns vowelRule text.data))).map Char.toLower⟩

/-! ## Language classifier (rag_service.py lines 94-118)

The statistical detector (`langdetect.detect`) is an external capability,
passed in as `detector`; an `Except.error` result models the exception
branch. -/

def HINGLISH_INDICATORS : List String :=
  ["mera", "kya", "hai", "kaun", "nam", "ka", "aap", "kab", "kaha",
   "please", "kripya", "kripya"]

/-- `detect_language` from rag_service.py.  `txt` is the stripped text; the
Hinglish heuristic fires when the text is entirely ASCII and the lowercase
form contains an indicator as a plain substring; otherwise the statistical
detector runs and its ISO code is mapped by prefix. -/
def detect_language (detector : String → Except Unit String) (text : String) : String :=
  let txt := pyStrip text
  if txt.isEmpty then "other"
  else
    let lowered := pyLower txt
    let latin_letters := txt.data.all (fun c => c.val ≤ 0x7F)
    if HINGLISH_INDICATORS.any (fun tok => strContains lowered tok && latin_letters) then
      "hinglish"
    else
      match detector txt with
      | .error _ => "other"
      | .ok lang =>
        if strStarts "hi" lang then "hi"
        else if strStarts "en" lang then "en"
        else lang

/-! ## Completion gateway (llm/llm_client.py)

The HTTP POST is an injected capability `provider : Nat → Except String
HttpResponse` giving, for each attempt index, either a network-level
exception (with its message) or a response.  `time.sleep` is recorded in the
`sleeps` trace. -/

/-- A small JSON value model for provider response bodies. -/
inductive Json where
  | null
  | str (s : String)
  | num (n : Int)
  | jbool (b : Bool)
  | arr (elems : List Json)
  | obj (fields : List (String × Json))

/-- Python `dict.get` on a JSON object's fields. -/
def jlookup (key : String) : List (String × Json) → Option Json
  | [] => none
  | (k, v) :: rest => if k = key then some v else jlookup key rest

/-- Python truthiness of a JSON value. -/
def jsonTruthy : Json → Bool
  | .null => false
  | .str s => !s.isEmpty
  | .num n => n != 0
  | .jbool b => b
  | .arr l => !l.isEmpty
  | .obj f => !f.isEmpty

/-- Python `a or b` over optional JSON values. -/
def jsonOr (a : Option Json) (b : Option Json) : Option Json :=
  match a with
  | some j => if jsonTruthy j then some j else b
  | none => b

/-- An HTTP response: status code, parsed JSON body when `res.json()`
succeeds, and the raw text body. -/
structure HttpResponse where
  status : Nat
  jsonBody : Option Json
  textBody : String

/-- The error taxonomy of the gateway.  `retriesExhausted`/`unknownFailure`
model the two `LLMError` raises at the end of `_post_with_retries`;
`apiError` models the non-200 `LLMError` in `_ask_groq`; the remaining
constructors model `_parse_response` failures (`pyException` stands for an
uncaught Python `TypeError` on a degenerate non-indexable shape). -/
inductive LLMFailure where
  | retriesExhausted (lastCause : String)
  | unknownFailure
  | apiError (status : Nat) (body : Option Json) (text : String)
  | invalidJson (status : Nat) (text : String)
  | noChoices (info : Json)
  | badShape
  | noContent
  | pyException

def RETRY_COUNT : Nat := 2
def RETRY_BACKOFF : Nat := 1

/-- Result of `_post_with_retries` together with its observable trace:
the number of provider invocations and the backoff delays slept. -/
structure PostOutcome where
  result : Except LLMFailure HttpResponse
  attempts : Nat
  sleeps : List Nat

/-- Aggregate error raised after the retry loop exhausts (`llm_client.py`
lines 46-49). -/
def aggFailure : Option String → LLMFailure
  | some e => .retriesExhausted e
  | none => .unknownFailure

/-- The retry loop of `_post_with_retries` (`llm_client.py` lines 31-49):
`remaining` is the number of loop iterations left (starting at
`RETRY_COUNT + 1`), `attempt` the current 0-based attempt index.  A network
exception, or a 5xx response while `attempt < RETRY_COUNT`, sleeps
`RETRY_BACKOFF * (attempt + 1)` and continues; any other response is
returned. -/
def postAux (provider : Nat → Except String HttpResponse) :
    Nat → Nat → Option String → Nat → List Nat → PostOutcome
  | 0, _, lastExc, att, sl => ⟨.error (aggFailure lastExc), att, sl⟩
  | remaining + 1, attempt, _, att, sl =>
    match provider attempt with
    | .error e =>
      postAux provider remaining (attempt + 1) (some e) (att + 1)
        (sl ++ [RETRY_BACKOFF * (attempt + 1)])
    | .ok res =>
      if 500 ≤ res.status ∧ attempt < RETRY_COUNT then
        postAux provider remaining (attempt + 1)
          (some ("Server error " ++ toString res.status)) (att + 1)
          (sl ++ [RETRY_BACKOFF * (attempt + 1)])
      else ⟨.ok res, att + 1, sl⟩

/-- `_post_with_retries` from llm_client.py. -/
def post_with_retries (provider : Nat → Except String HttpResponse) : PostOutcome :=
  postAux provider (RETRY_COUNT + 1) 0 none 0 []

/-- Content extraction from one choice (`_parse_response`, llm_client.py
lines 65-73): prefer `choice.message.content`, fall back to `choice.text`. -/
def extractChoice : Json → Except LLMFailure Json
  | .obj cf =>
    match jlookup "message" cf with
    | some (.obj mf) =>
      (match jlookup "content" mf with
       | some v => .ok v
       | none =>
         match jlookup "text" cf with
         | some v => .ok v
         | none => .error .noContent)
    | _ =>
      match jlookup "text" cf with
      | some v => .ok v
      | none => .error .noContent
  | _ => .error .pyException

/-- `_parse_response` from llm_client.py. -/
def parse_response (res : HttpResponse) : Except LLMFailure Json :=
  match res.jsonBody with
  | none => .error (.invalidJson res.status res.textBody)
  | some data =>
    match data with
    | .obj fields =>
      (match jlookup "choices" fields with
       | some choices =>
         if jsonTruthy choices then
           match choices with
           | .arr (c :: _) => extractChoice c
           | _ => .error .pyException
         else
           .error (.noChoices
             ((jsonOr (jlookup "error" fields)
                (jsonOr (jlookup "message" fields) (some data))).getD data))
       | none =>
         .error (.noChoices
           ((jsonOr (jlookup "error" fields)
              (jsonOr (jlookup "message" fields) (some data))).getD data)))
    | _ => .error .badShape

/-- `_ask_groq` from llm_client.py (lines 75-94): POST with retries, raise
`LLMError` on a non-200 final response, otherwise parse defensively. -/
def ask_groq (provider : Nat → Except String HttpResponse) : Except LLMFailure Json :=
  match (post_with_retries provider).result with
  | .error e => .error e
  | .ok res =>
    if res.status ≠ 200 then
      .error (.apiError res.status res.jsonBody res.textBody)
    else parse_response res

/-- A provider answering two 500s and then a well-formed 200. -/
def provTwo500Then200 : Nat → Except String HttpResponse := fun n =>
  if n < 2 then .ok ⟨500, none, "server error"⟩
  else .ok ⟨200,
    some (.obj [("choices", .arr [.obj [("message", .obj [("content", .str "recovered")])]])]),
    "ok"⟩

/-- A provider answering 500 on every attempt. -/
def provAll500 : Nat → Except String HttpResponse := fun _ =>
  .ok ⟨500, none, "server error"⟩

/-! ## Lead extractor (rag_service.py lines 42-43, 143-164)

`PHONE_RE = (\+?\d{2,4}[-\s]?)?(\d{3,5}[-\s]?\d{3,5}[-\s]?\d{3,5})` is
modelled by a backtracking matcher specialized to this pattern, trying
alternatives in the order the Python engine does: the optional group first
present then absent, each greedy counted repetition from its maximum down to
its minimum, each optional separator first consumed then skipped.
`findall` scans left to right and resumes after each match, returning the
two capture groups of each match. -/

/-- Exactly `n` leading digits, or failure. -/
def takeExactDigits : Nat → List Char → Option (List Char × List Char)
  | 0, s => some ([], s)
  | _ + 1, [] => none
  | n + 1, c :: r =>
    if c.isDigit then (takeExactDigits n r).map (fun p => (c :: p.1, p.2)) else none

/-- A separator character of the `[-\s]` class (ASCII `\s`). -/
def isSepChar (c : Char) : Bool :=
  c == '-' || pyIsSpace c

/-- Alternatives for `[-\s]?`, greedy: consume a separator first if present. -/
def sepChoices : List Char → List ((List Char) × List Char)
  | [] => [([], [])]
  | c :: r => if isSepChar c then [([c], r), ([], c :: r)] else [([], c :: r)]

/-- Alternatives for `\+?`, greedy. -/
def plusChoices : List Char → List ((List Char) × List Char)
  | [] => [([], [])]
  | c :: r => if c = '+' then [([c], r), ([], c :: r)] else [([], c :: r)]

/-- Backtracking over a greedy counted digit repetition `\d{m,n}`:
`counts` lists the lengths to try, longest first. -/
def matchDigits (counts : List Nat) (s : List Char)
    (k : List Char → List Char → Option α) : Option α :=
  counts.findSome? (fun n =>
    match takeExactDigits n s with
    | some (d, r) => k d r
    | none => none)

/-- Match group 2 of `PHONE_RE`: `\d{3,5}[-\s]?\d{3,5}[-\s]?\d{3,5}`.
Returns the captured text and the remaining input. -/
def matchG2 (s : List Char) : Option (List Char × List Char) :=
  matchDigits [5, 4, 3] s (fun d1 r1 =>
    (sepChoices r1).findSome? (fun p1 =>
      matchDigits [5, 4, 3] p1.2 (fun d2 r2 =>
        (sepChoices r2).findSome? (fun p2 =>
          matchDigits [5, 4, 3] p2.2 (fun d3 r3 =>
            some (d1 ++ p1.1 ++ d2 ++ p2.1 ++ d3, r3))))))

/-- Try to match `PHONE_RE` anchored at the head of `s`; on success return
(group 1 text, group 2 text, rest).  The optional group 1
`(\+?\d{2,4}[-\s]?)?` is tried present first. -/
def matchPhoneAt (s : List Char) : Option (List Char × List Char × List Char) :=
  ((plusChoices s).findSome? (fun pp =>
    matchDigits [4, 3, 2] pp.2 (fun d1 r1 =>
      (sepChoices r1).findSome? (fun sp =>
        (matchG2 sp.2).map (fun g => (pp.1 ++ d1 ++ sp.1, g.1, g.2))))))
  <|> ((matchG2 s).map (fun g => (([] : List Char), g.1, g.2)))

/-- `PHONE_RE.findall`: scan left to right, resume after each match; the
fuel (initial length) bounds the recursion and is never exhausted since
every match consumes at least one character. -/
def phoneFindallAux : Nat → List Char → List (List Char × List Char)
  | 0, _ => []
  | _ + 1, [] => []
  | fuel + 1, c :: rest =>
    match matchPhoneAt (c :: rest) with
    | some (g1, g2, after) => (g1, g2) :: phoneFindallAux fuel after
    | none => phoneFindallAux fuel rest

def phoneFindall (s : String) : List (List Char × List Char) :=
  phoneFindallAux s.data.length s.data

/-- The phone loop of `detect_lead`: take the first `findall` tuple whose
joined digit-only form has at least 7 digits. -/
def leadPhone (s : String) : Option String :=
  (phoneFindall s).findSome? (fun t =>
    let digits := (t.1 ++ t.2).filter Char.isDigit
    if 7 ≤ digits.length then some (String.mk digits) else none)

/-! `EMAIL_RE = [a-zA-Z0-9_.+-]+@[a-zA-Z0-9-]+\.[a-zA-Z0-9-.]+`.  Each
character class excludes the character that follows it in the pattern, so
greedy matching needs no backtracking: each run is maximal. -/

def isLocalChar (c : Char) : Bool :=
  c.isAlpha || c.isDigit || c == '_' || c == '.' || c == '+' || c == '-'

def isDomChar (c : Char) : Bool :=
  c.isAlpha || c.isDigit || c == '-'

def isTailChar (c : Char) : Bool :=
  c.isAlpha || c.isDigit || c == '-' || c == '.'

/-- Try to match `EMAIL_RE` anchored at the head of `s`; on success return
(matched text, rest). -/
def matchEmailAt (s : List Char) : Option (List Char × List Char) :=
  let lp := s.takeWhile isLocalChar
  if lp.isEmpty then none
  else
    match s.drop lp.length with
    | '@' :: r1 =>
      let dom := r1.takeWhile isDomChar
      if dom.isEmpty then none
      else
        match r1.drop dom.length with
        | '.' :: r2 =>
          let tl := r2.takeWhile isTailChar
          if tl.isEmpty then none
          else some (lp ++ '@' :: (dom ++ '.' :: tl), r2.drop tl.length)
        | _ => none
    | _ => none

/-- `EMAIL_RE.findall`. -/
def emailFindallAux : Nat → List Char → List String
  | 0, _ => []
  | _ + 1, [] => []
  | fuel + 1, c :: rest =>
    match matchEmailAt (c :: rest) with
    | some (m, after) => String.mk m :: emailFindallAux fuel after
    | none => emailFindallAux fuel rest

def emailFindall (s : String) : List String :=
  emailFindallAux s.data.length s.data

/-- Intent keyword set of `detect_lead` in rag_service.py (line 156). -/
def INTENT_KEYWORDS : List String :=
  ["book", "booking", "reserve", "order", "appointment", "visit", "lead", "interested"]

/-- Case-insensitive intent keyword containment. -/
def textIntent (user_text : String) : Bool :=
  INTENT_KEYWORDS.any (fun k => strContains (pyLower user_text) k)

/-- A lead candidate as returned by `detect_lead`. -/
structure LeadCand where
  phone : Option String
  email : Option String
  intent : Bool
deriving DecidableEq, Repr

/-- `detect_lead` from rag_service.py (lines 143-164).  The three `if`
statements on distinct rule names are mutually exclusive, hence the chain. -/
def detect_lead (user_text : String) (lead_def : String) : Option LeadCand :=
  let phone := leadPhone user_text
  let email := (emailFindall user_text).head?
  let intent := textIntent user_text
  if lead_def = "phone_or_email_or_intent" ∧
      (optTruthy phone || optTruthy email || intent) = true then
    some ⟨phone, email, intent⟩
  else if lead_def = "phone_and_intent" ∧ (optTruthy phone && intent) = true then
    some ⟨phone, email, intent⟩
  else if lead_def = "phone_or_intent" ∧ (optTruthy phone || intent) = true then
    some ⟨phone, email, intent⟩
  else none

/-! ## Tenant configuration and prompt composer (rag_service.py lines 47-62,
123-138, 248-257)

A `ClientCfg` models the resolved per-tenant configuration dictionary;
`Option` fields model `.get` with a default.  `system_prompt_overrides`
defaults to `""` in the code (`.get(...,"")`) and is then truthiness-tested,
so it is kept as a plain string. -/

structure ClientCfg where
  client_id : String
  display_name : Option String
  tone : Option String
  response_length : Option String
  lead_definition : Option String
  free_leads_per_month : Option Nat
  system_prompt_overrides : String
deriving DecidableEq, Repr

/-- `build_system_prompt` from rag_service.py: the persona template with
`display_name`, `tone` and `response_length` substituted, plus verbatim
overrides when non-empty. -/
def build_system_prompt (cfg : ClientCfg) : String :=
  let prompt :=
    "You are a helpful customer support assistant for " ++
    cfg.display_name.getD "this business" ++
    ". Follow persona instructions: tone=" ++ cfg.tone.getD "friendly" ++
    "; keep responses " ++ cfg.response_length.getD "short" ++
    ". ONLY use facts from CONTEXT. If not found, respond: \x27Sorry — I don\x27t have that info right now. Would you like me to connect you to a human?\x27."
  if cfg.system_prompt_overrides.isEmpty then prompt
  else prompt ++ "\n\n" ++ cfg.system_prompt_overrides

/-- A role-tagged prompt segment. -/
structure Msg where
  role : String
  content : String
deriving DecidableEq, Repr

/-- `build_messages` from rag_service.py (lines 248-257).  Note that the
`contexts` argument is accepted but never used: the composed prompt is
always `[system, user]`. -/
def build_messages (cfg : ClientCfg) (user_text : String) (contexts : List String)
    (detected_lang : String) : List Msg :=
  let _ := contexts
  let system := build_system_prompt cfg
  let system :=
    if detected_lang = "hi" ∨ detected_lang = "hinglish" then
      system ++ "\n\nReply in the user\x27s language (Hindi or Hinglish) and prefer simple Hindi words or Hinglish, keep tone same as persona."
    else system
  [⟨"system", system⟩, ⟨"user", user_text⟩]

/-- `PROMPT_SYSTEM` from rag_service4.py (lines 160-165), byte-for-byte
(including the mojibake dash in the source file). -/
def rs4_PROMPT_SYSTEM : String :=
  "You are a concise, polite customer support assistant for a local business. You MUST only answer factual questions using the CONTEXT provided. If the answer is not present in CONTEXT, say: \"Sorry â€” I don\x27t have that info right now. Would you like me to connect you to a human?\". Keep replies under 40 words. Match the user\x27s language and tone (Hinglish is fine)."

/-- `build_messages` from rag_service4.py (lines 167-181): non-empty
concatenated snippets are appended to the single system segment under a
`CONTEXT:` label (`if ctx_block:` is a Python truthiness test, so a list of
empty snippets adds nothing). -/
def rs4_build_messages (user_text : String) (contexts : List String) : List Msg :=
  let ctx_block := if contexts.isEmpty then "" else String.intercalate "\n\n" contexts
  let system_msg :=
    if ctx_block.isEmpty then rs4_PROMPT_SYSTEM
    else rs4_PROMPT_SYSTEM ++ "\n\nCONTEXT:\n" ++ ctx_block
  [⟨"system", system_msg⟩, ⟨"user", user_text⟩]

/-! ## Context retriever (rag_service.py lines 222-246)

The embedding model and the vector-search backend are injected capabilities.
The source tries `qdrant.search` / `qdrant.search_points` / raw REST — three
duck-typed routes to the same search capability inside one `try`, modelled
as the single `search` parameter.  The `embedder.encode` call sits OUTSIDE
the `try` block in the source, so an embedding failure propagates. -/

/-- One search hit reduced to its payload: the optional `text` field and the
serialized payload (`json.dumps(payload)`) used as fallback. -/
structure SearchHit where
  textField : Option String
  dumped : String
deriving DecidableEq, Repr

/-- `payload.get("text") or json.dumps(payload)` (Python `or`: an empty
`text` also falls back). -/
def hitText (h : SearchHit) : String :=
  match h.textField with
  | some t => if t.isEmpty then h.dumped else t
  | none => h.dumped

/-- `retrieve_context` from rag_service.py: embed (outside the `try`), then
search the tenant collection; any search failure degrades to `[]`. -/
def retrieve_context (embed : String → Except String (List Int))
    (search : String → List Int → Except String (List SearchHit))
    (cfg : ClientCfg) (user_text : String) : Except String (List String) :=
  match embed user_text with
  | .error e => .error e
  | .ok vec =>
    match search (cfg.client_id ++ "_kb") vec with
    | .error _ => .ok []
    | .ok hits => .ok (hits.map hitText)

/-! ## Lead persistence and quota (rag_service.py lines 175-217, 286-300) -/

/-- `get_monthly_lead_count`: 0 when Supabase is unconfigured; otherwise the
GET capability yields an exception or a `(status, row_count)` pair, with any
non-200 status or exception degrading to 0. -/
def get_monthly_lead_count (configured : Bool) (resp : Except Unit (Nat × Nat)) : Nat :=
  if !configured then 0
  else
    match resp with
    | .error _ => 0
    | .ok (status, n) => if status = 200 then n else 0

/-- `save_lead_supabase`: false when unconfigured; otherwise the POST
capability yields an exception (false) or a status code (true only for
200/201). -/
def save_lead_supabase (configured : Bool) (resp : Except Unit Nat) : Bool :=
  if !configured then false
  else
    match resp with
    | .error _ => false
    | .ok status => status == 200 || status == 201

/-- The fully annotated lead record returned in a `PipelineResult`. -/
structure LeadPayload where
  phone : Option String
  email : Option String
  intent : Bool
  raw_text : String
  source : Option String
  overage : Bool
  saved : Bool
  current_count : Nat
  free_limit : Nat
deriving DecidableEq, Repr

/-- The current monthly count as computed in `handle_message` line 290:
`get_monthly_lead_count(customer_id) if customer_id else 0`. -/
def currentOf (countConfigured : Bool) (countResp : String → Except Unit (Nat × Nat)) :
    Option String → Nat
  | some cid => get_monthly_lead_count countConfigured (countResp cid)
  | none => 0

/-- The quota-enforcement block of `handle_message` (lines 288-300): read the
monthly count, set `overage = current ≥ free`, attempt persistence
unconditionally, record the outcome. -/
def enforce_quota (countConfigured : Bool) (countResp : String → Except Unit (Nat × Nat))
    (saveConfigured : Bool) (saveResp : Except Unit Nat) (cfg : ClientCfg)
    (cand : LeadCand) (raw_text : String) (source : Option String)
    (customer_id : Option String) : LeadPayload :=
  let current := currentOf countConfigured countResp customer_id
  let free := cfg.free_leads_per_month.getD 250
  let overage := decide (free ≤ current)
  let saved := save_lead_supabase saveConfigured saveResp
  ⟨cand.phone, cand.email, cand.intent, raw_text, source, overage, saved, current, free⟩

/-! ## Pipeline orchestrator (rag_service.py lines 260-303) -/

structure PipelineResult where
  reply : String
  contexts : List String
  lead : Option LeadPayload
  total_s : Nat
deriving DecidableEq, Repr

/-- The fixed fallback reply of the empty-retrieval short circuit
(lines 275-276). -/
def fallback_reply (cfg : ClientCfg) : String :=
  "Sorry — I don\x27t have information about that for " ++
  cfg.display_name.getD "this business" ++
  ". Would you like me to connect you to a specialist or look up a nearby business?"

/-- `user_meta.get("channel") if user_meta else "unknown"`: the outer
`Option` is the presence (truthiness) of `user_meta`, the inner the
`channel` value. -/
def sourceOf : Option (Option String) → Option String
  | some ch => ch
  | none => some "unknown"

/-- The normalized text used by the pipeline: `normalize_romanized` is
applied exactly when the classifier says `hinglish` (lines 263-267). -/
def normTextOf (detector : String → Except Unit String) (user_text : String) : String :=
  if detect_language detector user_text = "hinglish" then normalize_romanized user_text
  else user_text

/-- `handle_message` from rag_service.py (lines 260-303): classify and
normalize, retrieve, short-circuit to the fallback on empty context, call
the gateway (swallowing any exception into an error-string reply), then
detect the lead and enforce the quota. -/
def handle_message (detector : String → Except Unit String)
    (embed : String → Except String (List Int))
    (search : String → List Int → Except String (List SearchHit))
    (ask : List Msg → Except String String)
    (countConfigured : Bool) (countResp : String → Except Unit (Nat × Nat))
    (saveConfigured : Bool) (saveResp : Except Unit Nat)
    (cfg : ClientCfg) (user_text : String)
    (user_meta : Option (Option String)) (customer_id : Option String) :
    Except String PipelineResult :=
  let detected := detect_language detector user_text
  let user_text_norm := normTextOf detector user_text
  match retrieve_context embed search cfg user_text_norm with
  | .error e => .error e
  | .ok contexts =>
    if contexts.isEmpty then
      .ok ⟨fallback_reply cfg, contexts, none, 0⟩
    else
      let reply :=
        match ask (build_messages cfg user_text_norm contexts detected) with
        | .ok r => r
        | .error e => "ERROR: LLM failed: " ++ e
      let lead := detect_lead user_text_norm (cfg.lead_definition.getD "phone_or_email_or_intent")
      let lead_payload := lead.map (fun cand =>
        enforce_quota countConfigured countResp saveConfigured saveResp cfg cand
          user_text_norm (sourceOf user_meta) customer_id)
      .ok ⟨reply, contexts, lead_payload, 0⟩

/-! ## Tenant resolver (serverless/router.py)

The mapping table (`data/mappings.json`, external configuration) is a
parameter; the keyword fallback table is hard-coded in the source. -/

/-- One channel entry of a mapping record. -/
structure MapChannel where
  type : Option String
  toAddr : Option String
  page_id : Option String
  email : Option String
deriving DecidableEq, Repr

/-- One record of the mapping table. -/
structure Mapping where
  customer_id : Option String
  channels : List MapChannel
deriving DecidableEq, Repr

/-- The canonical message consumed by the router. -/
structure CanonicalMsg where
  channel : Option String
  toAddr : Option String
  fromAddr : Option String
  text : Option String
deriving DecidableEq, Repr

/-- `map_by_to` (router.py lines 35-44): guard on a falsy `to`, strip it,
then return the `customer_id` of the first mapping with a channel whose
`type` and `to` match exactly. -/
def map_by_to (mappings : List Mapping) (channel : Option String)
    (to_identifier : Option String) : Option String :=
  if !optTruthy to_identifier then none
  else
    let t := pyStrip (to_identifier.getD "")
    match mappings.find? (fun m =>
        m.channels.any (fun ch => ch.type == channel && ch.toAddr == some t)) with
    | none => none
    | some m => m.customer_id

/-- `map_by_identifier` (router.py lines 46-54). -/
def map_by_identifier (mappings : List Mapping) (identifier : Option String) :
    Option String :=
  if !optTruthy identifier then none
  else
    let t := pyStrip (identifier.getD "")
    match mappings.find? (fun m =>
        m.channels.any (fun ch =>
          ch.toAddr == some t || ch.page_id == some t || ch.email == some t)) with
    | none => none
    | some m => m.customer_id

/-- The hard-coded keyword fallback table (router.py lines 57-61). -/
def KEYWORD_MAP : List (List String × String) :=
  [(["tattoo", "ink", "tattooing", "tattoo studio"], "tattoo_surat"),
   (["pizza", "menu", "coffee", "cafe", "special", "margherita", "paneer"], "cafe_pune"),
   (["hair", "salon", "cut", "styling", "appointment", "barber"], "salon_mumbai")]

/-- `norm_text` (router.py lines 32-33): `(t or "").strip().lower()`. -/
def norm_text (t : Option String) : String :=
  pyLower (pyStrip (if optTruthy t then t.getD "" else ""))

/-- `map_by_keyword` (router.py lines 63-69). -/
def map_by_keyword (text : Option String) : Option String :=
  let t := norm_text text
  KEYWORD_MAP.findSome? (fun e =>
    if e.1.any (fun tk => strContains t tk) then some e.2 else none)

/-- `identify_customer` (router.py lines 71-99): the cascading resolver.
Each rule's result is truthiness-tested (`if cid:`) before it wins. -/
def identify_customer (mappings : List Mapping) (canonical_msg : Option CanonicalMsg) :
    String :=
  match canonical_msg with
  | none => "default"
  | some msg =>
    let cid1 := map_by_to mappings msg.channel msg.toAddr
    if optTruthy cid1 then cid1.getD ""
    else
      let cid2 := pyOrOpt (map_by_identifier mappings msg.toAddr)
        (map_by_identifier mappings msg.fromAddr)
      if optTruthy cid2 then cid2.getD ""
      else
        let cid3 := map_by_keyword (some (if optTruthy msg.text then msg.text.getD "" else ""))
        if optTruthy cid3 then cid3.getD ""
        else "default"

/-! ## Auxiliary predicates and concrete fixtures used by the theorems -/

/-- No three consecutive equal non-newline characters (the normal form
reached by the two collapsing substitutions of `normalize_romanized`). -/
def noTriple : List Char → Prop
  | a :: b :: c :: rest => (a = b → b = c → a = '\n') ∧ noTriple (b :: c :: rest)
  | _ => True

/-- A decomposition witnessing three consecutive equal non-newline
characters. -/
def HasTrip (l : List Char) : Prop :=
  ∃ pre a post, a ≠ '\n' ∧ l = pre ++ a :: a :: a :: post

/-- A run-rewriting rule that keeps short runs and newline runs intact. -/
def GoodRule (f : Char → Nat → List Char) : Prop :=
  ∀ c n, n ≤ 2 ∨ c = '\n' → f c n = List.replicate n c

/-- A run-rewriting rule that only ever emits copies of the run
character. -/
def RuleChars (f : Char → Nat → List Char) : Prop :=
  ∀ c n x, x ∈ f c n → x = c

/-- Drop from the right end (the second half of Python `strip`). -/
def dropRev (p : Char → Bool) (x : List Char) : List Char :=
  (x.reverse.dropWhile p).reverse

/-- A demo tenant configuration. -/
def cfgDemo : ClientCfg :=
  ⟨"cafe_pune", some "Cafe Pune", none, none, none, none, ""⟩

/-- A demo tenant configuration with a display name used in fallbacks. -/
def cfgAcme : ClientCfg :=
  ⟨"acme", some "Acme", none, none, none, none, ""⟩

/-- A demo tenant configuration with a free-lead quota of 2. -/
def cfgFree2 : ClientCfg :=
  ⟨"cafe_pune", some "Cafe Pune", none, none, none, some 2, ""⟩

/-- An embedding capability that always raises. -/
def embedBoom : String → Except String (List Int) := fun _ => .error "embedding backend down"

/-- A search capability returning one payload-bearing hit. -/
def searchOneHit : String → List Int → Except String (List SearchHit) :=
  fun _ _ => .ok [⟨some "Tables available from 7pm", "\x7b\x7d"⟩]

/-- The mapping table of the resolver-precedence example: one tenant bound
to a WhatsApp address. -/
def mappingsEx : List Mapping :=
  [⟨some "tenant_A", [⟨some "whatsapp", some "whatsapp:+14155238886", none, none⟩]⟩]

/-- A message matching both the address mapping (rule 1) and the "pizza"
keyword (rule 3). -/
def msgPizza : CanonicalMsg :=
  ⟨some "whatsapp", some "whatsapp:+14155238886", some "whatsapp:+919876543210", some "pizza"⟩

/-! ## Claim theorems -/

/-- Claim C1: for every tenant configuration and every input text, if
context retrieval returns an empty sequence then `handle_message` returns
the fixed fallback reply with the tenant's `display_name` substituted and a
`none` lead, for every completion capability `ask` (so the completion
gateway is never consulted) and every lead/quota capability (so lead
extraction is skipped). -/
theorem handle_message_empty_retrieval_fallback
    (detector : String → Except Unit String)
    (embed : String → Except String (List Int))
    (search : String → List Int → Except String (List SearchHit))
    (ask : List Msg → Except String String)
    (cc : Bool) (cr : String → Except Unit (Nat × Nat)) (sc : Bool) (sr : Except Unit Nat)
    (cfg : ClientCfg) (text : String) (meta : Option (Option String)) (cid : Option String)
    (h : retrieve_context embed search cfg (normTextOf detector text) = .ok []) :
    handle_message detector embed search ask cc cr sc sr cfg text meta cid =
      .ok ⟨fallback_reply cfg, [], none, 0⟩ := by
  simp [handle_message, h]

/-- Claim C1 witness: a concrete pipeline whose search returns no hits
yields exactly the fallback result. -/
theorem handle_message_empty_retrieval_fallback_witness :
    handle_message (fun _ => .ok "en") (fun _ => .ok [1]) (fun _ _ => .ok [])
      (fun _ => .ok "ignored") false (fun _ => .error ()) false (.error ())
      cfgAcme "hello" none none =
      .ok ⟨fallback_reply cfgAcme, [], none, 0⟩ :=
  handle_message_empty_retrieval_fallback _ _ _ _ _ _ _ _ _ _ _ _ rfl

/-- Claim C2 counterexample: an exception raised by the embedding step
propagates out of `retrieve_context` instead of yielding an empty sequence
(`embedder.encode` sits outside the `try` block in the source). -/
theorem retrieve_context_embed_error_propagates_cex :
    retrieve_context embedBoom (fun _ _ => .ok []) cfgDemo "hello" =
      .error "embedding backend down" ∧
    retrieve_context embedBoom (fun _ _ => .ok []) cfgDemo "hello" ≠ .ok [] := by
  exact ⟨rfl, by decide⟩

/-- Claim C2 amended: only the vector-search step of `retrieve_context` is
guarded — a search exception degrades to the empty sequence, while an
embedding exception propagates to the caller. -/
theorem retrieve_context_failure_policy :
    (∀ (embed : String → Except String (List Int))
       (search : String → List Int → Except String (List SearchHit)) cfg t e,
       embed t = .error e → retrieve_context embed search cfg t = .error e) ∧
    (∀ (embed : String → Except String (List Int))
       (search : String → List Int → Except String (List SearchHit)) cfg t v e,
       embed t = .ok v → search (cfg.client_id ++ "_kb") v = .error e →
       retrieve_context embed search cfg t = .ok []) ∧
    (∀ (embed : String → Except String (List Int))
       (search : String → List Int → Except String (List SearchHit)) cfg t v hits,
       embed t = .ok v → search (cfg.client_id ++ "_kb") v = .ok hits →
       retrieve_context embed search cfg t = .ok (hits.map hitText)) := by
  refine ⟨fun embed search cfg t e h => ?_,
          fun embed search cfg t v e h1 h2 => ?_,
          fun embed search cfg t v hits h1 h2 => ?_⟩
  · simp [retrieve_context, h]
  · simp [retrieve_context, h1, h2]
  · simp [retrieve_context, h1, h2]

/-- Claim C2 witness: a concrete failing search degrades to `.ok []`. -/
theorem retrieve_context_failure_policy_witness :
    retrieve_context (fun _ => .ok [7]) (fun _ _ => .error "missing collection")
      cfgDemo "hi" = .ok [] :=
  retrieve_context_failure_policy.2.1 _ _ cfgDemo "hi" [7] "missing collection" rfl rfl

/-- Claim C5: on the non-short-circuit path, an exception from the
completion gateway is not propagated: `handle_message` returns `.ok` with a
reply embedding the error detail, and the lead field is exactly the output
of lead extraction plus quota enforcement on the (normalized) message. -/
theorem handle_message_llm_failure_recovery
    (detector : String → Except Unit String)
    (embed : String → Except String (List Int))
    (search : String → List Int → Except String (List SearchHit))
    (ask : List Msg → Except String String)
    (cc : Bool) (cr : String → Except Unit (Nat × Nat)) (sc : Bool) (sr : Except Unit Nat)
    (cfg : ClientCfg) (text : String) (meta : Option (Option String)) (cid : Option String)
    (ctxs : List String) (e : String)
    (hr : retrieve_context embed search cfg (normTextOf detector text) = .ok ctxs)
    (hne : ctxs ≠ [])
    (hask : ask (build_messages cfg (normTextOf detector text) ctxs
        (detect_language detector text)) = .error e) :
    handle_message detector embed search ask cc cr sc sr cfg text meta cid =
      .ok ⟨"ERROR: LLM failed: " ++ e, ctxs,
        (detect_lead (normTextOf detector text)
            (cfg.lead_definition.getD "phone_or_email_or_intent")).map
          (fun cand => enforce_quota cc cr sc sr cfg cand (normTextOf detector text)
            (sourceOf meta) cid), 0⟩ := by
  cases ctxs with
  | nil => exact absurd rfl hne
  | cons c cs => simp [handle_message, hr, hask]

/-- Claim C5 witness: a concrete failing gateway yields the error-string
reply while the qualifying lead is still extracted and annotated. -/
theorem handle_message_llm_failure_recovery_witness :
    handle_message (fun _ => .ok "en") (fun _ => .ok [1]) searchOneHit
      (fun _ => .error "boom") false (fun _ => .error ()) false (.error ())
      cfgAcme "please book a table, call 9876543210" none none =
      .ok ⟨"ERROR: LLM failed: boom", ["Tables available from 7pm"],
        some ⟨some "9876543210", none, true, "please book a table, call 9876543210",
          some "unknown", false, false, 0, 250⟩, 0⟩ := by
  have h := handle_message_llm_failure_recovery (fun _ => .ok "en") (fun _ => .ok [1])
    searchOneHit (fun _ => .error "boom") false (fun _ => .error ()) false (.error ())
    cfgAcme "please book a table, call 9876543210" none none
    ["Tables available from 7pm"] "boom" rfl (by decide) rfl
  exact h.trans (by decide)

/-- Claim C8: the quota enforcer sets `overage` exactly when the monthly
count has reached the free limit; the `saved` field is the persistence
capability's outcome, computed independently of `overage` (persistence is
always attempted); an unconfigured datastore or a failing save yields
`saved = false` without raising; an unconfigured count capability yields
`current_count = 0`; and with `free_leads_per_month = 2`,
`current_count = 2` the lead is still persisted with `overage = true`. -/
theorem enforce_quota_spec :
    (∀ cc cr sc sr cfg cand raw src cid,
       (enforce_quota cc cr sc sr cfg cand raw src cid).overage =
         decide (cfg.free_leads_per_month.getD 250 ≤ currentOf cc cr cid) ∧
       (enforce_quota cc cr sc sr cfg cand raw src cid).saved =
         save_lead_supabase sc sr ∧
       (cc = false → (enforce_quota cc cr sc sr cfg cand raw src cid).current_count = 0) ∧
       (sc = false → (enforce_quota cc cr sc sr cfg cand raw src cid).saved = false) ∧
       (sr = .error () → (enforce_quota cc cr sc sr cfg cand raw src cid).saved = false)) ∧
    enforce_quota true (fun _ => .ok (200, 2)) true (.ok 201) cfgFree2
      ⟨some "9876543210", none, true⟩ "please book a table, call 9876543210"
      (some "whatsapp") (some "cafe_pune") =
      ⟨some "9876543210", none, true, "please book a table, call 9876543210",
       some "whatsapp", true, true, 2, 2⟩ := by
  refine ⟨fun cc cr sc sr cfg cand raw src cid =>
    ⟨rfl, rfl, fun hcc => ?_, fun hsc => ?_, fun hsr => ?_⟩, by decide⟩
  · subst hcc
    cases cid with
    | none => rfl
    | some c => simp [enforce_quota, currentOf, get_monthly_lead_count]
  · subst hsc
    simp [enforce_quota, save_lead_supabase]
  · subst hsr
    cases sc <;> simp [enforce_quota, save_lead_supabase]

/-- Claim C8 witness: with everything unconfigured the enforcer degrades to
`saved = false`, `current_count = 0` rather than raising. -/
theorem enforce_quota_spec_witness :
    (enforce_quota false (fun _ => .error ()) false (.error ()) cfgDemo
        ⟨some "9876543210", none, true⟩ "t" none (some "cafe_pune")).current_count = 0 ∧
    (enforce_quota false (fun _ => .error ()) false (.error ()) cfgDemo
        ⟨some "9876543210", none, true⟩ "t" none (some "cafe_pune")).saved = false := by
  have h := enforce_quota_spec.1 false (fun _ => .error ()) false (.error ()) cfgDemo
    ⟨some "9876543210", none, true⟩ "t" none (some "cafe_pune")
  exact ⟨h.2.2.1 rfl, h.2.2.2.1 rfl⟩

/-- Claim C9: tenant resolution is a first-match-wins cascade — a non-empty
address-mapping hit (rule 1) decides the tenant before the keyword rule is
consulted, and when no rule produces a truthy tenant id the resolver
returns the literal `"default"`. -/
theorem identify_customer_precedence :
    (∀ mappings (msg : CanonicalMsg) cid,
       map_by_to mappings msg.channel msg.toAddr = some cid → cid ≠ "" →
       identify_customer mappings (some msg) = cid) ∧
    (∀ mappings (msg : CanonicalMsg),
       optTruthy (map_by_to mappings msg.channel msg.toAddr) = false →
       optTruthy (map_by_identifier mappings msg.toAddr) = false →
       optTruthy (map_by_identifier mappings msg.fromAddr) = false →
       optTruthy (map_by_keyword
         (some (if optTruthy msg.text then msg.text.getD "" else ""))) = false →
       identify_customer mappings (some msg) = "default") := by
  constructor
  · intro mappings msg cid h hne
    have hcid : optTruthy (some cid) = true := by
      have hf : cid.isEmpty = false := by
        cases hc : cid.isEmpty
        · rfl
        · exact absurd ((String.isEmpty_iff cid).mp hc) hne
      simp [optTruthy, hf]
    simp [identify_customer, h, hcid]
  · intro mappings msg h1 h2 h3 h4
    simp [identify_customer, h1, pyOrOpt, h2, h3, h4]

/-- Claim C9 witness: the spec example — a message whose `to` address maps
to `tenant_A` and whose text "pizza" maps to `cafe_pune` by keyword
resolves to `tenant_A` (rule 1 beats rule 3). -/
theorem identify_customer_precedence_witness :
    identify_customer mappingsEx (some msgPizza) = "tenant_A" ∧
    map_by_keyword msgPizza.text = some "cafe_pune" :=
  ⟨identify_customer_precedence.1 mappingsEx msgPizza "tenant_A" (by decide) (by decide),
   by decide⟩

/-- Claim C10: Hinglish marker detection is plain substring containment on
the lowercased stripped text — any entirely-ASCII text containing a marker
as a substring of any word is classified `hinglish`, for every statistical
detector (which is therefore never consulted). -/
theorem detect_language_hinglish_substring
    (detector : String → Except Unit String) (text : String)
    (hne : (pyStrip text).isEmpty = false)
    (hascii : (pyStrip text).data.all (fun c => c.val ≤ 0x7F) = true)
    (hmark : HINGLISH_INDICATORS.any
        (fun tok => strContains (pyLower (pyStrip text)) tok) = true) :
    detect_language detector text = "hinglish" := by
  simp only [detect_language, hne, Bool.false_eq_true, if_false, hascii, Bool.and_true]
  rw [if_pos]
  rw [hmark]

/-- Claim C10 witness: "okay hair" contains the markers "ka" and "hai" only
inside larger words, yet is classified `hinglish` even with a detector that
reports English. -/
theorem detect_language_hinglish_substring_witness :
    detect_language (fun _ => .ok "en") "okay hair" = "hinglish" :=
  detect_language_hinglish_substring _ "okay hair" (by decide) (by decide) (by decide)

/-- Claim C7: under rule `phone_and_intent`, `detect_lead` returns a
candidate exactly when the text has both a phone match whose digit-only
form has length ≥ 7 (the first such `findall` match, via `leadPhone`) and
an intent keyword; a valid phone without an intent keyword yields `none`,
and the spec example yields phone `"9876543210"` with `intent = true`. -/
theorem detect_lead_phone_and_intent_rule :
    (∀ t, (detect_lead t "phone_and_intent").isSome =
       (optTruthy (leadPhone t) && textIntent t)) ∧
    detect_lead "please book a table, call 9876543210" "phone_and_intent" =
      some ⟨some "9876543210", none, true⟩ ∧
    detect_lead "call 9876543210" "phone_and_intent" = none := by
  refine ⟨fun t => ?_, by decide, by decide⟩
  have h1 : ("phone_and_intent" : String) ≠ "phone_or_email_or_intent" := by decide
  have h3 : ("phone_and_intent" : String) ≠ "phone_or_intent" := by decide
  cases hb : optTruthy (leadPhone t) && textIntent t
  · simp [detect_lead, h1, h3, hb]
  · simp [detect_lead, h1, h3, hb]

/-! Claim C4 helper lemmas: bounds on the retry loop trace. -/

theorem postAux_attempts_le (provider : Nat → Except String HttpResponse) :
    ∀ rem att lastExc acc sl,
      (postAux provider rem att lastExc acc sl).attempts ≤ acc + rem := by
  intro rem
  induction rem with
  | zero => intro att lastExc acc sl; simp [postAux]
  | succ n ih =>
    intro att lastExc acc sl
    unfold postAux
    cases h : provider att with
    | error e =>
      show (postAux provider n (att + 1) (some e) (acc + 1)
        (sl ++ [RETRY_BACKOFF * (att + 1)])).attempts ≤ acc + (n + 1)
      have := ih (att + 1) (some e) (acc + 1) (sl ++ [RETRY_BACKOFF * (att + 1)])
      omega
    | ok res =>
      show (if 500 ≤ res.status ∧ att < RETRY_COUNT then
          postAux provider n (att + 1) (some ("Server error " ++ toString res.status))
            (acc + 1) (sl ++ [RETRY_BACKOFF * (att + 1)])
        else ⟨.ok res, acc + 1, sl⟩).attempts ≤ acc + (n + 1)
      by_cases hc : 500 ≤ res.status ∧ att < RETRY_COUNT
      · rw [if_pos hc]
        have := ih (att + 1) (some ("Server error " ++ toString res.status)) (acc + 1)
          (sl ++ [RETRY_BACKOFF * (att + 1)])
        omega
      · rw [if_neg hc]
        show acc + 1 ≤ acc + (n + 1)
        omega

/-- Claim C4: the completion gateway retries only on network-level
exceptions or HTTP 5xx (a non-5xx first response is returned after exactly
one attempt with no sleep), makes at most `RETRY_COUNT + 1 = 3` attempts
with backoff `RETRY_BACKOFF × attempt_number`; two 500s then a 200 yield
the parsed content of the 200 response after 3 attempts and sleeps
`[1, 2]`; an all-500 provider exhausts the 3 attempts and the gateway
raises `LLMError` (modelled `.apiError 500 …`). -/
theorem completion_gateway_retry_policy :
    (∀ provider, (post_with_retries provider).attempts ≤ RETRY_COUNT + 1) ∧
    (∀ provider r, provider 0 = .ok r → r.status < 500 →
       post_with_retries provider = ⟨.ok r, 1, []⟩) ∧
    (∀ provider, 2 ≤ (post_with_retries provider).attempts →
       (∃ e, provider 0 = .error e) ∨ (∃ r, provider 0 = .ok r ∧ 500 ≤ r.status)) ∧
    (ask_groq provTwo500Then200 = .ok (.str "recovered") ∧
     (post_with_retries provTwo500Then200).attempts = 3 ∧
     (post_with_retries provTwo500Then200).sleeps =
       [RETRY_BACKOFF * 1, RETRY_BACKOFF * 2]) ∧
    (ask_groq provAll500 = .error (.apiError 500 none "server error") ∧
     (post_with_retries provAll500).attempts = RETRY_COUNT + 1) := by
  have key2 : ∀ provider r, provider 0 = .ok r → r.status < 500 →
      post_with_retries provider = ⟨.ok r, 1, []⟩ := by
    intro provider r h hlt
    show postAux provider (RETRY_COUNT + 1) 0 none 0 [] = _
    unfold postAux
    rw [h]
    simp only []
    rw [if_neg (by omega)]
  refine ⟨fun provider => ?_, key2, fun provider h2 => ?_, ⟨rfl, rfl, rfl⟩, ⟨rfl, rfl⟩⟩
  · have := postAux_attempts_le provider (RETRY_COUNT + 1) 0 none 0 []
    simpa [post_with_retries] using this
  · cases hp : provider 0 with
    | error e => exact Or.inl ⟨e, rfl⟩
    | ok r =>
      by_cases hs : 500 ≤ r.status
      · exact Or.inr ⟨r, rfl, hs⟩
      · have := key2 provider r hp (by omega)
        rw [this] at h2
        exact absurd (show (2 : Nat) ≤ 1 from h2) (by omega)

/-- Claim C4 witness: a 404 first response is returned after a single
attempt, with no retry and no sleep. -/
theorem completion_gateway_retry_policy_witness :
    post_with_retries (fun _ => .ok ⟨404, none, "nf"⟩) =
      ⟨.ok ⟨404, none, "nf"⟩, 1, []⟩ :=
  completion_gateway_retry_policy.2.1 (fun _ => .ok ⟨404, none, "nf"⟩)
    ⟨404, none, "nf"⟩ rfl (by decide)

/-- Claim C3 counterexample: with a non-empty snippet list, the prompt
composed by `build_messages` (rag_service.py) has only two segments and no
segment carries a `CONTEXT` label or the snippet text — the snippets are
dropped, so there is no system-context segment at all. -/
theorem build_messages_ignores_snippets_cex :
    (build_messages cfgDemo "when do you open" ["Opening hours: 9am to 9pm"] "en").length
      = 2 ∧
    (build_messages cfgDemo "when do you open" ["Opening hours: 9am to 9pm"] "en").all
      (fun m => !(strContains m.content "CONTEXT:")) = true ∧
    (build_messages cfgDemo "when do you open" ["Opening hours: 9am to 9pm"] "en").all
      (fun m => !(strContains m.content "Opening hours: 9am to 9pm")) = true := by
  exact ⟨rfl, by decide, by decide⟩

/-- Claim C3 amended: the per-tenant composer (rag_service.py) ignores the
snippets entirely and always produces exactly `[system-persona, user]`; the
legacy composer (rag_service4.py) appends truthy concatenated snippets to
the end of its single system segment under a `CONTEXT:` label, before the
user segment — a combined segment, not a separate second system segment. -/
theorem build_messages_prompt_shape :
    (∀ cfg t ctxs ctxs2 lang,
       build_messages cfg t ctxs lang = build_messages cfg t ctxs2 lang) ∧
    (∀ cfg t ctxs lang, ∃ sys,
       build_messages cfg t ctxs lang = [⟨"system", sys⟩, ⟨"user", t⟩]) ∧
    (∀ t ctxs, (String.intercalate "\n\n" ctxs).isEmpty = false → ctxs ≠ [] →
       rs4_build_messages t ctxs =
         [⟨"system", rs4_PROMPT_SYSTEM ++ "\n\nCONTEXT:\n" ++ String.intercalate "\n\n" ctxs⟩,
          ⟨"user", t⟩]) := by
  refine ⟨fun cfg t ctxs ctxs2 lang => rfl,
          fun cfg t ctxs lang => ⟨_, rfl⟩,
          fun t ctxs hb hne => ?_⟩
  have hx : ctxs.isEmpty = false := by
    cases ctxs with
    | nil => exact absurd rfl hne
    | cons c cs => rfl
  simp [rs4_build_messages, hx, hb]

/-- Claim C3 witness: one concrete snippet is appended under the `CONTEXT:`
label in the legacy composer. -/
theorem build_messages_prompt_shape_witness :
    rs4_build_messages "hi" ["Menu: pizza"] =
      [⟨"system", rs4_PROMPT_SYSTEM ++ "\n\nCONTEXT:\n" ++
          String.intercalate "\n\n" ["Menu: pizza"]⟩,
       ⟨"user", "hi"⟩] :=
  build_messages_prompt_shape.2.2 "hi" ["Menu: pizza"] (by decide) (by decide)

/-! Claim C6 development: idempotence of `normalize_romanized` on inputs
fixed by lowercasing.  The collapsed form is characterized by `noTriple`
(no three consecutive equal non-newline characters); both rewrite rules fix
such lists, and the second rewrite always produces one. -/

theorem noTriple_tail {a : Char} {l : List Char} (h : noTriple (a :: l)) : noTriple l := by
  match l with
  | [] => trivial
  | [_] => trivial
  | b :: c :: rest => exact h.2

theorem noTriple_cons (a : Char) (l : List Char)
    (h1 : ∀ b c r, l = b :: c :: r → a = b → b = c → a = '\n')
    (h2 : noTriple l) : noTriple (a :: l) := by
  match l with
  | [] => trivial
  | [_] => trivial
  | b :: c :: r => exact ⟨h1 b c r rfl, h2⟩

theorem noTriple_append_right : ∀ u v : List Char, noTriple (u ++ v) → noTriple v := by
  intro u
  induction u with
  | nil => intro v h; exact h
  | cons a t ih => intro v h; exact ih v (noTriple_tail h)

theorem noTriple_no_decomp : ∀ (pre : List Char) (a : Char) (post : List Char),
    a ≠ '\n' → ¬ noTriple (pre ++ a :: a :: a :: post) := by
  intro pre
  induction pre with
  | nil => intro a post ha h; exact ha (h.1 rfl rfl)
  | cons p pre ih => intro a post ha h; exact ih a post ha (noTriple_tail h)

theorem not_hasTrip_of_noTriple {l : List Char} (h : noTriple l) : ¬ HasTrip l := by
  rintro ⟨pre, a, post, ha, rfl⟩
  exact noTriple_no_decomp pre a post ha h

theorem noTriple_of_not_hasTrip : ∀ l : List Char, ¬ HasTrip l → noTriple l := by
  intro l
  induction l with
  | nil => intro; trivial
  | cons a t ih =>
    intro h
    apply noTriple_cons
    · intro b c r hr hab hbc
      by_contra hne
      exact h ⟨[], a, r, hne, by subst hr; subst hab; subst hbc; rfl⟩
    · apply ih
      rintro ⟨pre, x, post, hx, rfl⟩
      exact h ⟨a :: pre, x, post, hx, rfl⟩

theorem hasTrip_of_middle (u m v : List Char) (h : HasTrip m) : HasTrip (u ++ m ++ v) := by
  obtain ⟨pre, a, post, ha, rfl⟩ := h
  exact ⟨u ++ pre, a, post ++ v, ha, by simp⟩

theorem dropWhile_suffix_decomp (p : Char → Bool) :
    ∀ l : List Char, ∃ u, l = u ++ l.dropWhile p := by
  intro l
  induction l with
  | nil => exact ⟨[], rfl⟩
  | cons a t ih =>
    by_cases h : p a
    · obtain ⟨u, hu⟩ := ih
      refine ⟨a :: u, ?_⟩
      rw [List.dropWhile_cons_of_pos h]
      exact congrArg (List.cons a) hu
    · exact ⟨[], by simp [List.dropWhile_cons_of_neg h]⟩

theorem dropRev_prefix_decomp (p : Char → Bool) (x : List Char) :
    ∃ w, x = dropRev p x ++ w := by
  obtain ⟨u, hu⟩ := dropWhile_suffix_decomp p x.reverse
  refine ⟨u.reverse, ?_⟩
  have h2 := congrArg List.reverse hu
  simpa [List.reverse_append, dropRev] using h2

theorem trim_decomp (l : List Char) : ∃ u v, l = u ++ trimChars l ++ v := by
  obtain ⟨u, hu⟩ := dropWhile_suffix_decomp pyIsSpace l
  obtain ⟨w, hw⟩ := dropRev_prefix_decomp pyIsSpace (l.dropWhile pyIsSpace)
  refine ⟨u, w, ?_⟩
  have : trimChars l = dropRev pyIsSpace (l.dropWhile pyIsSpace) := rfl
  rw [this, List.append_assoc, ← hw]
  exact hu

theorem noTriple_trim {l : List Char} (h : noTriple l) : noTriple (trimChars l) := by
  obtain ⟨u, v, hd⟩ := trim_decomp l
  apply noTriple_of_not_hasTrip
  intro ht
  exact not_hasTrip_of_noTriple h (hd ▸ hasTrip_of_middle u (trimChars l) v ht)

theorem goodRule_vowel : GoodRule vowelRule := by
  intro c n h
  unfold vowelRule
  rcases h with h | h
  · have hd : decide (3 ≤ n) = false := by simp; omega
    simp [hd]
  · subst h
    have hv : isVowelLower '\n' = false := by decide
    simp [hv]

theorem goodRule_long : GoodRule longRule := by
  intro c n h
  unfold longRule
  rcases h with h | h
  · have hd : decide (3 ≤ n) = false := by simp; omega
    simp [hd]
  · subst h
    simp

theorem replicate_succ_append (n : Nat) (c : Char) (xs : List Char) :
    List.replicate n c ++ c :: xs = List.replicate (n + 1) c ++ xs := by
  induction n with
  | zero => rfl
  | succ m ih => simpa [List.replicate_succ] using ih

theorem run_short_of_noTriple {n : Nat} {c : Char} {l : List Char}
    (h : noTriple (List.replicate n c ++ l)) : n ≤ 2 ∨ c = '\n' := by
  by_cases hn : n ≤ 2
  · exact Or.inl hn
  · right
    obtain ⟨m, rfl⟩ : ∃ m, n = m + 3 := ⟨n - 3, by omega⟩
    have hsh : List.replicate (m + 3) c ++ l =
        c :: c :: c :: (List.replicate m c ++ l) := by
      simp [List.replicate_succ]
    rw [hsh] at h
    exact h.1 rfl rfl

theorem collapseAux_fix (f : Char → Nat → List Char) (hf : GoodRule f) :
    ∀ (l : List Char) (c : Char) (n : Nat),
      noTriple (List.replicate n c ++ l) →
      collapseAux f c n l = List.replicate n c ++ l := by
  intro l
  induction l with
  | nil =>
    intro c n h
    show f c n = List.replicate n c ++ []
    rw [List.append_nil]
    exact hf c n (run_short_of_noTriple h)
  | cons x xs ih =>
    intro c n h
    by_cases hx : x = c
    · subst hx
      show (if x = x then collapseAux f x (n + 1) xs else f x n ++ collapseAux f x 1 xs)
        = List.replicate n x ++ x :: xs
      rw [if_pos rfl, replicate_succ_append]
      exact ih x (n + 1) (by rw [← replicate_succ_append]; exact h)
    · show (if x = c then collapseAux f c (n + 1) xs else f c n ++ collapseAux f x 1 xs)
        = List.replicate n c ++ x :: xs
      rw [if_neg hx]
      have h2 : noTriple (x :: xs) := noTriple_append_right (List.replicate n c) _ h
      have h3 : collapseAux f x 1 xs = x :: xs := by
        have := ih x 1 (by simpa using h2)
        simpa using this
      rw [hf c n (run_short_of_noTriple h), h3]

theorem collapseRuns_fix (f : Char → Nat → List Char) (hf : GoodRule f)
    (l : List Char) (h : noTriple l) : collapseRuns f l = l := by
  cases l with
  | nil => rfl
  | cons x xs =>
    show collapseAux f x 1 xs = x :: xs
    have := collapseAux_fix f hf xs x 1 (by simpa using h)
    simpa using this

theorem uniform_block_append (c : Char) (t : List Char)
    (hhead : ∀ d, t.head? = some d → d ≠ c) (ht : noTriple t) :
    ∀ k : Nat, k ≤ 2 ∨ c = '\n' → noTriple (List.replicate k c ++ t) := by
  intro k
  induction k with
  | zero => intro _; simpa using ht
  | succ k ih =>
    intro hk
    have hk' : k ≤ 2 ∨ c = '\n' := by
      rcases hk with h | h
      · exact Or.inl (by omega)
      · exact Or.inr h
    have base := ih hk'
    show noTriple (c :: (List.replicate k c ++ t))
    apply noTriple_cons _ _ _ base
    intro b cc r heq hab hbc
    match k, hk, heq with
    | 0, _, heq =>
      have ht2 : t = b :: cc :: r := by simpa using heq
      have hb : t.head? = some b := by rw [ht2]; rfl
      exact absurd hab.symm (hhead b hb)
    | 1, _, heq =>
      have hct : c :: t = b :: cc :: r := by simpa [List.replicate] using heq
      obtain ⟨hb, ht2⟩ := List.cons.inj hct
      have hc2 : t.head? = some cc := by rw [ht2]; rfl
      exact absurd (hab.trans hbc).symm (hhead cc hc2)
    | m + 2, hk, _ =>
      rcases hk with h | h
      · omega
      · exact h

theorem longRule_cond_false {c : Char} {n : Nat}
    (h : ¬ ((c != '\n' && decide (3 ≤ n)) = true)) : n ≤ 2 ∨ c = '\n' := by
  by_cases hc : c = '\n'
  · exact Or.inr hc
  · left
    by_contra hn2
    apply h
    simp [bne_iff_ne, hc]
    omega

theorem longRule_cases (c : Char) (n : Nat) :
    longRule c n = [c, c] ∨
      (longRule c n = List.replicate n c ∧ (n ≤ 2 ∨ c = '\n')) := by
  unfold longRule
  by_cases h : (c != '\n' && decide (3 ≤ n)) = true
  · rw [if_pos h]; exact Or.inl rfl
  · rw [if_neg h]; exact Or.inr ⟨rfl, longRule_cond_false h⟩

theorem longRule_head (c : Char) (n : Nat) (hn : 1 ≤ n) :
    ∃ r, longRule c n = c :: r := by
  rcases longRule_cases c n with h | ⟨h, _⟩
  · rw [h]; exact ⟨[c], rfl⟩
  · rw [h]
    cases n with
    | zero => exact absurd hn (by omega)
    | succ m => exact ⟨List.replicate m c, rfl⟩

theorem longRule_noTriple (c : Char) (n : Nat) : noTriple (longRule c n) := by
  rcases longRule_cases c n with h | ⟨h, hk⟩
  · rw [h]; trivial
  · rw [h]
    have := uniform_block_append c [] (fun d hd => by cases hd) trivial n hk
    simpa using this

theorem collapseAux_long_good :
    ∀ (l : List Char) (c : Char) (n : Nat), 1 ≤ n →
      noTriple (collapseAux longRule c n l) ∧
      (collapseAux longRule c n l).head? = some c := by
  intro l
  induction l with
  | nil =>
    intro c n hn
    constructor
    · show noTriple (longRule c n)
      exact longRule_noTriple c n
    · show (longRule c n).head? = some c
      obtain ⟨r, hr⟩ := longRule_head c n hn
      rw [hr]; rfl
  | cons x xs ih =>
    intro c n hn
    by_cases hx : x = c
    · subst hx
      have hstep : collapseAux longRule x n (x :: xs) = collapseAux longRule x (n + 1) xs := by
        show (if x = x then collapseAux longRule x (n + 1) xs else _) = _
        rw [if_pos rfl]
      rw [hstep]
      exact ih x (n + 1) (by omega)
    · obtain ⟨ht, hh⟩ := ih x 1 (le_refl 1)
      have hgoal : collapseAux longRule c n (x :: xs) =
          longRule c n ++ collapseAux longRule x 1 xs := by
        show (if x = c then _ else _) = _
        rw [if_neg hx]
      rw [hgoal]
      have hdist : ∀ d, (collapseAux longRule x 1 xs).head? = some d → d ≠ c := by
        intro d hd
        rw [hh] at hd
        cases hd
        exact hx
      constructor
      · rcases longRule_cases c n with hcase | ⟨hcase, hk⟩
        · rw [hcase]
          exact uniform_block_append c (collapseAux longRule x 1 xs) hdist ht 2
            (Or.inl (le_refl 2))
        · rw [hcase]
          exact uniform_block_append c (collapseAux longRule x 1 xs) hdist ht n hk
      · obtain ⟨r, hr⟩ := longRule_head c n hn
        rw [hr]
        rfl

theorem collapseRuns_long_noTriple (l : List Char) :
    noTriple (collapseRuns longRule l) := by
  cases l with
  | nil => trivial
  | cons x xs => exact (collapseAux_long_good xs x 1 (le_refl 1)).1

theorem ruleChars_vowel : RuleChars vowelRule := by
  intro c n x hx
  unfold vowelRule at hx
  by_cases h : (isVowelLower c && decide (3 ≤ n)) = true
  · rw [if_pos h] at hx
    simpa using hx
  · rw [if_neg h] at hx
    exact List.eq_of_mem_replicate hx

theorem ruleChars_long : RuleChars longRule := by
  intro c n x hx
  rcases longRule_cases c n with h | ⟨h, _⟩
  · rw [h] at hx
    rcases List.mem_cons.mp hx with hx2 | hx2
    · exact hx2
    · simpa using hx2
  · rw [h] at hx
    exact List.eq_of_mem_replicate hx

theorem collapseAux_chars (f : Char → Nat → List Char) (hc : RuleChars f) :
    ∀ (l : List Char) (c : Char) (n : Nat) (x : Char),
      x ∈ collapseAux f c n l → x = c ∨ x ∈ l := by
  intro l
  induction l with
  | nil => intro c n x hx; exact Or.inl (hc c n x hx)
  | cons y ys ih =>
    intro c n x hx
    by_cases hy : y = c
    · subst hy
      have hstep : collapseAux f y n (y :: ys) = collapseAux f y (n + 1) ys := by
        show (if y = y then _ else _) = _
        rw [if_pos rfl]
      rw [hstep] at hx
      rcases ih y (n + 1) x hx with h | h
      · exact Or.inl h
      · exact Or.inr (List.mem_cons_of_mem y h)
    · have hstep : collapseAux f c n (y :: ys) = f c n ++ collapseAux f y 1 ys := by
        show (if y = c then _ else _) = _
        rw [if_neg hy]
      rw [hstep] at hx
      rcases List.mem_append.mp hx with h | h
      · exact Or.inl (hc c n x h)
      · rcases ih y 1 x h with h2 | h2
        · exact Or.inr (h2 ▸ List.mem_cons_self y ys)
        · exact Or.inr (List.mem_cons_of_mem y h2)

theorem collapseRuns_chars (f : Char → Nat → List Char) (hc : RuleChars f)
    (l : List Char) (x : Char) (hx : x ∈ collapseRuns f l) : x ∈ l := by
  cases l with
  | nil => cases hx
  | cons y ys =>
    rcases collapseAux_chars f hc ys y 1 x hx with h | h
    · exact h ▸ List.mem_cons_self y ys
    · exact List.mem_cons_of_mem y h

theorem trim_mem {l : List Char} {x : Char} (hx : x ∈ trimChars l) : x ∈ l := by
  obtain ⟨u, v, hd⟩ := trim_decomp l
  rw [hd]
  simp only [List.mem_append]
  exact Or.inl (Or.inr hx)

theorem map_toLower_fixed : ∀ l : List Char, (∀ x ∈ l, Char.toLower x = x) →
    l.map Char.toLower = l := by
  intro l
  induction l with
  | nil => intro; rfl
  | cons a t ih =>
    intro h
    rw [List.map_cons, h a (List.mem_cons_self a t), ih (fun x hx => h x (List.mem_cons_of_mem a hx))]

theorem map_toLower_pointwise : ∀ l : List Char, l.map Char.toLower = l →
    ∀ x ∈ l, Char.toLower x = x := by
  intro l
  induction l with
  | nil => intro _ x hx; cases hx
  | cons a t ih =>
    intro h x hx
    rw [List.map_cons] at h
    have h1 : Char.toLower a = a := (List.cons.inj h).1
    have h2 : t.map Char.toLower = t := (List.cons.inj h).2
    rcases List.mem_cons.mp hx with h3 | h3
    · rw [h3]; exact h1
    · exact ih h2 x h3

theorem dropWhile_idem (p : Char → Bool) :
    ∀ l : List Char, (l.dropWhile p).dropWhile p = l.dropWhile p := by
  intro l
  induction l with
  | nil => rfl
  | cons a t ih =>
    by_cases h : p a
    · rw [List.dropWhile_cons_of_pos h, ih]
    · rw [List.dropWhile_cons_of_neg h, List.dropWhile_cons_of_neg h]

theorem length_dropWhile_le (p : Char → Bool) :
    ∀ l : List Char, (l.dropWhile p).length ≤ l.length := by
  intro l
  induction l with
  | nil => exact le_refl 0
  | cons a t ih =>
    by_cases h : p a
    · rw [List.dropWhile_cons_of_pos h]
      exact Nat.le_trans ih (by simp)
    · rw [List.dropWhile_cons_of_neg h]

theorem dropWhile_of_fix_and_front (p : Char → Bool) :
    ∀ x y : List Char, x.dropWhile p = x → (∃ w, x = y ++ w) →
      y.dropWhile p = y := by
  intro x y hx hpre
  cases y with
  | nil => rfl
  | cons a y2 =>
    obtain ⟨w, hw⟩ := hpre
    have hpa : p a = false := by
      by_contra hpa
      have hpa' : p a = true := by
        cases hp2 : p a
        · exact absurd hp2 hpa
        · rfl
      have hx2 : x = a :: (y2 ++ w) := by rw [hw]; rfl
      have hstep : x.dropWhile p = (y2 ++ w).dropWhile p := by
        rw [hx2, List.dropWhile_cons_of_pos hpa']
      have hxeq : x = (y2 ++ w).dropWhile p := by rw [← hx, hstep]
      have hlen := length_dropWhile_le p (y2 ++ w)
      rw [← hxeq] at hlen
      have hxlen : x.length = (y2 ++ w).length + 1 := by rw [hw]; simp
      omega
    rw [List.dropWhile_cons_of_neg (by simp [hpa])]

theorem dropRev_idem (p : Char → Bool) (x : List Char) :
    dropRev p (dropRev p x) = dropRev p x := by
  unfold dropRev
  rw [List.reverse_reverse, dropWhile_idem]

theorem trim_idem (l : List Char) : trimChars (trimChars l) = trimChars l := by
  have h1 : (List.dropWhile pyIsSpace l).dropWhile pyIsSpace =
      List.dropWhile pyIsSpace l := dropWhile_idem pyIsSpace l
  have hpre := dropRev_prefix_decomp pyIsSpace (List.dropWhile pyIsSpace l)
  have h2 : List.dropWhile pyIsSpace (dropRev pyIsSpace (List.dropWhile pyIsSpace l)) =
      dropRev pyIsSpace (List.dropWhile pyIsSpace l) :=
    dropWhile_of_fix_and_front pyIsSpace (List.dropWhile pyIsSpace l)
      (dropRev pyIsSpace (List.dropWhile pyIsSpace l)) h1 hpre
  show dropRev pyIsSpace
      (List.dropWhile pyIsSpace (dropRev pyIsSpace (List.dropWhile pyIsSpace l))) =
    dropRev pyIsSpace (List.dropWhile pyIsSpace l)
  rw [h2, dropRev_idem]

/-- Claim C6 counterexample: `normalize_romanized` is not idempotent — the
input `"aAa"` has its case-broken run unified only by the final lowercasing,
so a second application collapses further (`"aAa"` ↦ `"aaa"` ↦ `"a"`). -/
theorem normalize_romanized_not_idempotent_cex :
    normalize_romanized (normalize_romanized "aAa") ≠ normalize_romanized "aAa" ∧
    normalize_romanized "aAa" = "aaa" ∧
    normalize_romanized (normalize_romanized "aAa") = "a" := by
  exact ⟨by decide, by decide, by decide⟩

/-- Claim C6 amended: `normalize_romanized` is idempotent on every input
that lowercasing leaves unchanged (in particular the spec's examples:
`"hiiiii"` ↦ `"hi"` and `"hi"` ↦ `"hi"`); for general mixed-case input the
final lowercasing can merge a case-broken run and a second application may
collapse it further. -/
theorem normalize_romanized_idem_on_lowercase :
    (∀ t : String, t.data.map Char.toLower = t.data →
       normalize_romanized (normalize_romanized t) = normalize_romanized t) ∧
    normalize_romanized "hiiiii" = "hi" ∧
    normalize_romanized "hi" = "hi" := by
  refine ⟨fun t ht => ?_, by decide, by decide⟩
  have hfix : ∀ x ∈ t.data, Char.toLower x = x := map_toLower_pointwise t.data ht
  have hu3 : noTriple (collapseRuns longRule (collapseRuns vowelRule t.data)) :=
    collapseRuns_long_noTriple (collapseRuns vowelRule t.data)
  have huchars : ∀ x ∈ collapseRuns longRule (collapseRuns vowelRule t.data), x ∈ t.data :=
    fun x hx => collapseRuns_chars vowelRule ruleChars_vowel t.data x
      (collapseRuns_chars longRule ruleChars_long (collapseRuns vowelRule t.data) x hx)
  have hvlow : ∀ x ∈ trimChars (collapseRuns longRule (collapseRuns vowelRule t.data)),
      Char.toLower x = x :=
    fun x hx => hfix x (huchars x (trim_mem hx))
  have hmapv : (trimChars (collapseRuns longRule (collapseRuns vowelRule t.data))).map
      Char.toLower = trimChars (collapseRuns longRule (collapseRuns vowelRule t.data)) :=
    map_toLower_fixed _ hvlow
  have hNt : normalize_romanized t =
      ⟨trimChars (collapseRuns longRule (collapseRuns vowelRule t.data))⟩ := by
    unfold normalize_romanized
    rw [hmapv]
  have hv3 : noTriple (trimChars (collapseRuns longRule (collapseRuns vowelRule t.data))) :=
    noTriple_trim hu3
  have hc1 : collapseRuns vowelRule
      (trimChars (collapseRuns longRule (collapseRuns vowelRule t.data))) =
      trimChars (collapseRuns longRule (collapseRuns vowelRule t.data)) :=
    collapseRuns_fix vowelRule goodRule_vowel _ hv3
  have hc2 : collapseRuns longRule
      (trimChars (collapseRuns longRule (collapseRuns vowelRule t.data))) =
      trimChars (collapseRuns longRule (collapseRuns vowelRule t.data)) :=
    collapseRuns_fix longRule goodRule_long _ hv3
  rw [hNt]
  show (⟨(trimChars (collapseRuns longRule (collapseRuns vowelRule
      (trimChars (collapseRuns longRule (collapseRuns vowelRule t.data)))))).map
      Char.toLower⟩ : String) = _
  rw [hc1, hc2, trim_idem, hmapv]

/-- Claim C6 witness: the amended idempotence applied at the lowercase
input of the spec examples. -/
theorem normalize_romanized_idem_on_lowercase_witness :
    normalize_romanized (normalize_romanized "hiiiii") = normalize_romanized "hiiiii" :=
  normalize_romanized_idem_on_lowercase.1 "hiiiii" (by decide)
